import Mathlib

/-!
# Verification of the EdgeDetectionUI processing core

Shallow embedding of the repository's processing core:
`processors/edges.py` (`_odd`, `_gaussian_blur`, `run_canny`, `run_sobel`,
`run_laplacian`) and `utils/image_io.py` (`pil_to_cv2`, `cv2_to_pil`).

Modelling conventions:
* A raster is a record of height, width and a total pixel function; a pixel
  is a natural number (single channel) or a triple of naturals (3 channels,
  stored in array order, so a BGR raster stores (B,G,R)).
* The OpenCV primitives the Python code calls (`cvtColor`, `Sobel`,
  `Laplacian`, `GaussianBlur`, `magnitude`, `normalize`, `convertScaleAbs`,
  `Canny`) are embedded following OpenCV's documented reference behaviour:
  reflect-101 border extension, `getDerivKernels` Pascal-triangle kernels,
  the fixed-point BGR→gray luma weights, min-max normalization with the
  degenerate flat guard, absolute-value-plus-saturation 8-bit conversion,
  and Canny's L1 magnitude / non-maximum suppression / hysteresis chain.
* Floating-point intermediates (`CV_64F` gradients are exact integers on
  8-bit input, so they are kept in ℤ; the Sobel-"Both" magnitude and the
  Gaussian kernel are idealized as exact reals).
* Python integers are ℤ (Python `%` on a positive modulus is `Int.emod`),
  Python float parameters are ℚ at the API boundary, strings are `String`
  with an ASCII model of `str.capitalize`.
-/

/-- A raster: height, width, and a total pixel function (row, column ↦
sample).  Only the values at `r < h`, `c < w` are meaningful. -/
structure Img (α : Type) where
  h : ℕ
  w : ℕ
  px : ℕ → ℕ → α

/-- A 3-channel pixel, in storage order (so a BGR raster stores (B,G,R)). -/
abbrev Pix : Type := ℕ × ℕ × ℕ

/-- OpenCV `borderInterpolate` with `BORDER_REFLECT_101` (the default border
of `filter2D`/`sepFilter2D`): index `-1 ↦ 1`, `len ↦ len - 2`, in closed
form via the period `2*(len-1)`; a length-1 axis always resolves to 0. -/
def borderReflect101 (p : ℤ) (len : ℕ) : ℕ :=
  if len ≤ 1 then 0
  else if (p % (2 * ((len : ℤ) - 1))).toNat < len then (p % (2 * ((len : ℤ) - 1))).toNat
  else 2 * (len - 1) - (p % (2 * ((len : ℤ) - 1))).toNat

/-- One step of OpenCV's `getSobelKernels` smoothing loop (Pascal triangle). -/
def pascalStep (row : List ℤ) : List ℤ :=
  List.zipWith (· + ·) ((0 : ℤ) :: row) (row ++ [0])

/-- One step of OpenCV's `getSobelKernels` differentiation loop. -/
def derivStep (row : List ℤ) : List ℤ :=
  List.zipWith (· - ·) ((0 : ℤ) :: row) (row ++ [0])

/-- The 1-D kernel produced by OpenCV `getDerivKernels` for one axis:
aperture `k`, derivative order `o` (with the `ksize == 1` special case,
which uses the 3-tap derivative kernel on the differentiated axis). -/
def sobelKer (k o : ℕ) : List ℤ :=
  derivStep^[o] (pascalStep^[(if k = 1 ∧ 0 < o then 3 else k) - o - 1] [1])

/-- Separable correlation with reflect-101 border handling, kernel anchored
at its centre: `kx` runs along columns, `ky` along rows (OpenCV
`sepFilter2D`). -/
def convSep (img : Img ℤ) (kx ky : List ℤ) : Img ℤ :=
  ⟨img.h, img.w, fun r c =>
    ∑ j ∈ Finset.range ky.length,
      ky.getD j 0 *
        ∑ i ∈ Finset.range kx.length,
          kx.getD i 0 *
            img.px (borderReflect101 ((r : ℤ) + (j : ℤ) - ((ky.length / 2 : ℕ) : ℤ)) img.h)
                   (borderReflect101 ((c : ℤ) + (i : ℤ) - ((kx.length / 2 : ℕ) : ℤ)) img.w)⟩

/-- Plain 2-D correlation with reflect-101 border handling (OpenCV
`filter2D`), used for the `ksize = 1` Laplacian aperture. -/
def conv2d (img : Img ℤ) (ker : List (List ℤ)) : Img ℤ :=
  ⟨img.h, img.w, fun r c =>
    ∑ j ∈ Finset.range ker.length,
      ∑ i ∈ Finset.range (ker.getD j []).length,
        (ker.getD j []).getD i 0 *
          img.px (borderReflect101 ((r : ℤ) + (j : ℤ) - ((ker.length / 2 : ℕ) : ℤ)) img.h)
                 (borderReflect101 ((c : ℤ) + (i : ℤ) - (((ker.getD j []).length / 2 : ℕ) : ℤ)) img.w)⟩

/-- `cv2.cvtColor(img, cv2.COLOR_BGR2GRAY)` on a BGR raster: OpenCV's
fixed-point luma, `(1868*B + 9617*G + 4899*R + 8192) >> 14`. -/
def bgrToGray (img : Img Pix) : Img ℤ :=
  ⟨img.h, img.w, fun r c =>
    (1868 * ((img.px r c).1 : ℤ) + 9617 * ((img.px r c).2.1 : ℤ) +
      4899 * ((img.px r c).2.2 : ℤ) + 8192) / 16384⟩

/-- `edges.py` line 15, `_odd`: `return v if v % 2 == 1 else v + 1`
(Python `%` with a positive modulus is `Int.emod`). -/
def _odd (v : ℤ) : ℤ :=
  if v % 2 = 1 then v else v + 1

/-- `cv2.Sobel(g, cv2.CV_64F, dx, dy, ksize=k)`: separable filter with the
`getDerivKernels` kernels.  (`CV_64F` output on 8-bit input is exact, so the
result is kept in ℤ.) -/
def cv2Sobel (g : Img ℤ) (dx dy k : ℕ) : Img ℤ :=
  convSep g (sobelKer k dx) (sobelKer k dy)

/-- `np.zeros_like(g, dtype=np.float64)`. -/
def zerosLike (g : Img ℤ) : Img ℤ :=
  ⟨g.h, g.w, fun _ _ => 0⟩

/-- `cv2.convertScaleAbs` with default scale/shift: absolute value, then
saturating cast to 8 bits (the input values here are exact integers, so
rounding is the identity). -/
def convertScaleAbs (g : Img ℤ) : Img ℕ :=
  ⟨g.h, g.w, fun r c => min 255 (g.px r c).natAbs⟩

/-- Python `str.capitalize()` restricted to ASCII case mapping: first
character uppercased, the rest lowercased. -/
def pyCapitalize (s : String) : String :=
  match s.data with
  | [] => ""
  | c :: cs => String.mk (c.toUpper :: cs.map Char.toLower)

/-- `cv2.magnitude(gx, gy)`: per-pixel Euclidean magnitude, idealized over
the exact reals. -/
noncomputable def cv2Magnitude (gx gy : Img ℤ) : Img ℝ :=
  ⟨gx.h, gx.w, fun r c =>
    Real.sqrt (((gx.px r c : ℤ) : ℝ) ^ 2 + ((gy.px r c : ℤ) : ℝ) ^ 2)⟩

/-- Maximum pixel value over the raster's domain, scanned row-major with the
top-left pixel as the running value (OpenCV `minMaxIdx`). -/
noncomputable def imgMax (g : Img ℝ) : ℝ :=
  ((List.range (g.h * g.w)).map fun n => g.px (n / g.w) (n % g.w)).foldl max (g.px 0 0)

/-- Minimum pixel value over the raster's domain (OpenCV `minMaxIdx`). -/
noncomputable def imgMin (g : Img ℝ) : ℝ :=
  ((List.range (g.h * g.w)).map fun n => g.px (n / g.w) (n % g.w)).foldl min (g.px 0 0)

/-- `cv2.normalize(g, None, 0, 255, cv2.NORM_MINMAX)`: affine rescale of the
source range onto `[0, 255]`; when the source range is degenerate
(`max = min`) OpenCV's scale factor is 0 and the output is identically 0. -/
noncomputable def cv2NormalizeMinMax (g : Img ℝ) : Img ℝ :=
  let mn := imgMin g
  let mx := imgMax g
  let scale := if 0 < mx - mn then 255 / (mx - mn) else 0
  let shift := 0 - mn * scale
  ⟨g.h, g.w, fun r c => g.px r c * scale + shift⟩

/-- numpy `.astype(np.uint8)` on a nonnegative float raster: C-style
truncation, wrapping modulo 256. -/
noncomputable def astypeU8 (g : Img ℝ) : Img ℕ :=
  ⟨g.h, g.w, fun r c => (⌊g.px r c⌋).toNat % 256⟩

/-- `edges.py` lines 74-92, the body of `run_sobel` after the direction
string has been normalized to `d`. -/
noncomputable def sobelCore (img : Img Pix) (ksize : ℤ) (d : String) : Img ℕ :=
  let gray := bgrToGray img
  let k := (_odd ksize).toNat
  let dx : ℕ := if d = "X" ∨ d = "Both" then 1 else 0
  let dy : ℕ := if d = "Y" ∨ d = "Both" then 1 else 0
  let gx := if dx ≠ 0 then cv2Sobel gray 1 0 k else zerosLike gray
  let gy := if dy ≠ 0 then cv2Sobel gray 0 1 k else zerosLike gray
  if d = "Both" then
    astypeU8 (cv2NormalizeMinMax (cv2Magnitude gx gy))
  else
    convertScaleAbs (if dx ≠ 0 then gx else gy)

/-- `edges.py` line 61, `run_sobel`: the direction is defaulted when falsy
(`direction or "Both"`, with `None` modelled as `none` and `""` falsy) and
normalized with `str.capitalize`, then the core body runs. -/
noncomputable def run_sobel (img : Img Pix) (ksize : ℤ) (direction : Option String) : Img ℕ :=
  sobelCore img ksize (pyCapitalize (match direction with
    | none => "Both"
    | some s => if s = "" then "Both" else s))

/-- `cv2.Laplacian(g, cv2.CV_64F, ksize=k)`: the fixed 3×3 aperture for
`ksize = 1`, otherwise the sum of the two separable second-derivative
filters from `getDerivKernels`. -/
def cv2Laplacian (g : Img ℤ) (k : ℕ) : Img ℤ :=
  if k = 1 then conv2d g [[0, 1, 0], [1, -4, 1], [0, 1, 0]]
  else
    ⟨g.h, g.w, fun r c =>
      (convSep g (sobelKer k 2) (sobelKer k 0)).px r c +
        (convSep g (sobelKer k 0) (sobelKer k 2)).px r c⟩

/-- `edges.py` line 98, `run_laplacian`: grayscale, `_odd` kernel size,
Laplacian, `convertScaleAbs`. -/
def run_laplacian (img : Img Pix) (ksize : ℤ) : Img ℕ :=
  convertScaleAbs (cv2Laplacian (bgrToGray img) ((_odd ksize).toNat))

/-- OpenCV `getGaussianKernel`'s fixed small kernels (used when
`ksize ≤ 7` and `sigma ≤ 0`). -/
noncomputable def smallGaussianTab : ℕ → List ℝ
  | 1 => [1]
  | 3 => [1 / 4, 1 / 2, 1 / 4]
  | 5 => [1 / 16, 1 / 4, 3 / 8, 1 / 4, 1 / 16]
  | 7 => [2 / 64, 7 / 64, 14 / 64, 18 / 64, 14 / 64, 7 / 64, 2 / 64]
  | _ => []

/-- OpenCV `getGaussianKernel`: the fixed small tables for
`ksize ≤ 7 ∧ sigma ≤ 0`, otherwise sampled `exp` values normalized to sum 1,
with the default sigma formula for non-positive sigma. -/
noncomputable def getGaussianKernel (k : ℕ) (sigma : ℚ) : List ℝ :=
  if k ≤ 7 ∧ sigma ≤ 0 then smallGaussianTab k
  else
    let s : ℝ := if 0 < sigma then (sigma : ℝ) else 0.3 * (((k : ℝ) - 1) * 0.5 - 1) + 0.8
    let vals := (List.range k).map fun i =>
      Real.exp (-(((i : ℝ) - ((k : ℝ) - 1) / 2) ^ 2) / (2 * s ^ 2))
    vals.map (· / vals.sum)

/-- `cv2.GaussianBlur(g, (k, k), sigmaX, sigmaY)` on an 8-bit raster:
separable correlation with the two Gaussian kernels, rounded and saturated
back to 8 bits, reflect-101 border. -/
noncomputable def cv2GaussianBlur (g : Img ℤ) (k : ℕ) (sigmaX sigmaY : ℚ) : Img ℤ :=
  let kx := getGaussianKernel k sigmaX
  let ky := getGaussianKernel k sigmaY
  ⟨g.h, g.w, fun r c =>
    min 255 (max 0 (round (∑ j ∈ Finset.range ky.length,
      ky.getD j 0 * ∑ i ∈ Finset.range kx.length,
        kx.getD i 0 *
          ((g.px (borderReflect101 ((r : ℤ) + (j : ℤ) - ((ky.length / 2 : ℕ) : ℤ)) g.h)
                 (borderReflect101 ((c : ℤ) + (i : ℤ) - ((kx.length / 2 : ℕ) : ℤ)) g.w) : ℤ) : ℝ))))⟩

/-- `edges.py` line 24, `_gaussian_blur`: normalize the kernel size to odd
and blur with the same sigma on both axes. -/
noncomputable def _gaussian_blur (gray : Img ℤ) (ksize : ℤ) (sigma : ℚ) : Img ℤ :=
  cv2GaussianBlur gray ((_odd ksize).toNat) sigma sigma

/-- Horizontal gradient of `cv2.Canny`'s internal aperture-3 Sobel. -/
def cannyGx (g : Img ℤ) : Img ℤ :=
  convSep g [-1, 0, 1] [1, 2, 1]

/-- Vertical gradient of `cv2.Canny`'s internal aperture-3 Sobel. -/
def cannyGy (g : Img ℤ) : Img ℤ :=
  convSep g [1, 2, 1] [-1, 0, 1]

/-- Canny's L1 gradient magnitude (`L2gradient=False` default), with the
zero padding OpenCV places around the magnitude buffer. -/
def cannyMagAt (g : Img ℤ) (r c : ℤ) : ℤ :=
  if 0 ≤ r ∧ r < (g.h : ℤ) ∧ 0 ≤ c ∧ c < (g.w : ℤ) then
    |(cannyGx g).px r.toNat c.toNat| + |(cannyGy g).px r.toNat c.toNat|
  else 0

/-- Canny non-maximum suppression at one pixel: the magnitude must exceed
the low threshold and be a local maximum along the quantized gradient
direction (OpenCV's fixed-point sector test with `TG22 = 13573 / 2^15`). -/
def cannyNms (g : Img ℤ) (low : ℤ) (r c : ℕ) : Bool :=
  let m := cannyMagAt g r c
  let xs := (cannyGx g).px r c
  let ys := (cannyGy g).px r c
  let ax := |xs|
  let ay := |ys| * 32768
  decide (low < m) &&
    (if ay < ax * 13573 then
      decide (cannyMagAt g r ((c : ℤ) - 1) < m) && decide (cannyMagAt g r ((c : ℤ) + 1) ≤ m)
    else if ax * 13573 + 2 * ax * 32768 < ay then
      decide (cannyMagAt g ((r : ℤ) - 1) c < m) && decide (cannyMagAt g ((r : ℤ) + 1) c ≤ m)
    else
      let s : ℤ := if (xs < 0 ↔ ys < 0) then 1 else -1
      decide (cannyMagAt g ((r : ℤ) - 1) ((c : ℤ) - s) < m) &&
        decide (cannyMagAt g ((r : ℤ) + 1) ((c : ℤ) + s) ≤ m))

/-- A strong Canny seed: passes non-maximum suppression and exceeds the
high threshold. -/
def cannyStrong (g : Img ℤ) (low high : ℤ) (r c : ℕ) : Bool :=
  cannyNms g low r c && decide (high < cannyMagAt g r c)

/-- The 8-neighbourhood used by Canny's hysteresis. -/
def neighborOffsets : List (ℤ × ℤ) :=
  [(-1, -1), (-1, 0), (-1, 1), (0, -1), (0, 1), (1, -1), (1, 0), (1, 1)]

/-- One propagation step of hysteresis: keep every already-accepted pixel
and accept every weak candidate 8-connected to an accepted pixel. -/
def hystStep (weak : ℕ → ℕ → Bool) (h w : ℕ) (S : ℕ → ℕ → Bool) : ℕ → ℕ → Bool :=
  fun r c =>
    S r c ||
      (weak r c &&
        neighborOffsets.any fun d =>
          decide (0 ≤ (r : ℤ) + d.1) && decide ((r : ℤ) + d.1 < (h : ℤ)) &&
            decide (0 ≤ (c : ℤ) + d.2) && decide ((c : ℤ) + d.2 < (w : ℤ)) &&
              S ((r : ℤ) + d.1).toNat ((c : ℤ) + d.2).toNat)

/-- The final Canny edge map: hysteresis (iterated to a fixed point — one
pass per pixel suffices) from the strong seeds through the weak candidates.
OpenCV sorts the two thresholds first. -/
def cannyEdge (g : Img ℤ) (t1 t2 : ℤ) : ℕ → ℕ → Bool :=
  (hystStep (cannyNms g (min t1 t2)) g.h g.w)^[g.h * g.w] (cannyStrong g (min t1 t2) (max t1 t2))

/-- `cv2.Canny(g, threshold1, threshold2)`: edges at 255, everything else
at 0. -/
def cv2Canny (g : Img ℤ) (t1 t2 : ℤ) : Img ℕ :=
  ⟨g.h, g.w, fun r c => if cannyEdge g t1 t2 r c then 255 else 0⟩

/-- `edges.py` line 37, `run_canny`: grayscale, conditional Gaussian
pre-blur, Canny operator. -/
noncomputable def run_canny (img : Img Pix) (low high ksize : ℤ) (sigma : ℚ) : Img ℕ :=
  let gray := bgrToGray img
  let gray2 := if 1 < ksize ∨ 0 < sigma then _gaussian_blur gray ksize sigma else gray
  cv2Canny gray2 low high

/-- Reverse the first and third channel of a pixel: `cv2.cvtColor` with
`COLOR_RGB2BGR` and `COLOR_BGR2RGB` both perform exactly this swap. -/
def swapRB (p : Pix) : Pix :=
  (p.2.2, p.2.1, p.1)

/-- `image_io.py` line 20, `pil_to_cv2`: `convert("RGB")` is the identity
on a 3-channel RGB raster; the array is then reordered RGB → BGR. -/
def pil_to_cv2 (img : Img Pix) : Img Pix :=
  ⟨img.h, img.w, fun r c => swapRB (img.px r c)⟩

/-- A numpy array handed to `cv2_to_pil`: 2-dimensional (grayscale) or
3-dimensional (3-channel) — the `img_cv.ndim == 2` test in the source. -/
inductive CvMat where
  | gray (g : Img ℕ)
  | color (g : Img Pix)

/-- `image_io.py` line 35, `cv2_to_pil`: single-channel input is replicated
into three identical channels (`COLOR_GRAY2RGB`), 3-channel input is
reordered BGR → RGB. -/
def cv2_to_pil : CvMat → Img Pix
  | CvMat.gray g => ⟨g.h, g.w, fun r c => (g.px r c, g.px r c, g.px r c)⟩
  | CvMat.color g => ⟨g.h, g.w, fun r c => swapRB (g.px r c)⟩

/-! ## Helper lemmas -/

/-- A raster is flat when every pixel of its domain carries the same value. -/
def IsFlat {α : Type} (img : Img α) (v : α) : Prop :=
  ∀ r, r < img.h → ∀ c, c < img.w → img.px r c = v

lemma sum_zipWith_sub (l1 l2 : List ℤ) (h : l1.length = l2.length) :
    (List.zipWith (· - ·) l1 l2).sum = l1.sum - l2.sum := by
  induction l1 generalizing l2 with
  | nil => cases l2 <;> simp_all
  | cons a t ih =>
    cases l2 with
    | nil => simp at h
    | cons b u =>
      simp only [List.zipWith_cons_cons, List.sum_cons, ih u (by simpa using h)]
      ring

/-- The differentiation step telescopes: its output always sums to zero. -/
lemma derivStep_sum (row : List ℤ) : (derivStep row).sum = 0 := by
  unfold derivStep
  rw [sum_zipWith_sub _ _ (by simp)]
  simp

/-- Every derivative kernel of positive order sums to zero. -/
lemma sobelKer_sum (k o : ℕ) (ho : 0 < o) : (sobelKer k o).sum = 0 := by
  obtain ⟨m, rfl⟩ : ∃ m, o = m + 1 := ⟨o - 1, (Nat.succ_pred_eq_of_pos ho).symm⟩
  unfold sobelKer
  rw [Function.iterate_succ_apply']
  exact derivStep_sum _

lemma sum_range_getD (l : List ℤ) :
    ∑ i ∈ Finset.range l.length, l.getD i 0 = l.sum := by
  induction l with
  | nil => simp
  | cons a t ih =>
    rw [List.length_cons, Finset.sum_range_succ']
    simp only [List.getD_cons_succ, List.getD_cons_zero, List.sum_cons]
    rw [ih]
    ring

/-- Reflect-101 always resolves to an in-range index. -/
lemma borderReflect101_lt (p : ℤ) (len : ℕ) (hl : 0 < len) :
    borderReflect101 p len < len := by
  unfold borderReflect101
  by_cases h1 : len ≤ 1
  · simp [h1, hl]
  · push_neg at h1
    simp only [Nat.not_le.mpr h1, if_false]
    by_cases h2 : (p % (2 * ((len : ℤ) - 1))).toNat < len
    · simp [h2]
    · simp only [h2, if_false]
      have hnn : 0 ≤ p % (2 * ((len : ℤ) - 1)) := Int.emod_nonneg _ (by omega)
      have hlt : p % (2 * ((len : ℤ) - 1)) < 2 * ((len : ℤ) - 1) :=
        Int.emod_lt_of_pos _ (by omega)
      omega

/-- Separable correlation of a flat raster multiplies the value by the two
kernel sums. -/
lemma convSep_const (img : Img ℤ) (v : ℤ) (hf : IsFlat img v)
    (hh : 0 < img.h) (hw : 0 < img.w) (kx ky : List ℤ) (r c : ℕ) :
    (convSep img kx ky).px r c = ky.sum * (kx.sum * v) := by
  have hstep : (convSep img kx ky).px r c
      = ∑ j ∈ Finset.range ky.length, ky.getD j 0 *
          ∑ i ∈ Finset.range kx.length, kx.getD i 0 * v := by
    simp only [convSep]
    exact Finset.sum_congr rfl fun j _ =>
      congrArg (fun t => ky.getD j 0 * t) (Finset.sum_congr rfl fun i _ => by
        rw [hf _ (borderReflect101_lt _ _ hh) _ (borderReflect101_lt _ _ hw)])
  rw [hstep]
  have h1 : (∑ i ∈ Finset.range kx.length, kx.getD i 0 * v) = kx.sum * v := by
    rw [← Finset.sum_mul, sum_range_getD]
  simp only [h1]
  rw [← Finset.sum_mul, sum_range_getD]

lemma foldl_max_const (l : List ℝ) (a : ℝ) (hl : ∀ x ∈ l, x = a) :
    l.foldl max a = a := by
  induction l with
  | nil => rfl
  | cons b t ih =>
    have hb : b = a := hl b (by simp)
    simp only [List.foldl_cons, hb, max_self]
    exact ih fun x hx => hl x (by simp [hx])

lemma foldl_min_const (l : List ℝ) (a : ℝ) (hl : ∀ x ∈ l, x = a) :
    l.foldl min a = a := by
  induction l with
  | nil => rfl
  | cons b t ih =>
    have hb : b = a := hl b (by simp)
    simp only [List.foldl_cons, hb, min_self]
    exact ih fun x hx => hl x (by simp [hx])

/-- A non-empty direction string is passed through `capitalize` unchanged by
the falsy-default step. -/
lemma run_sobel_some (img : Img Pix) (k : ℤ) (s : String) (hs : s ≠ "") :
    run_sobel img k (some s) = sobelCore img k (pyCapitalize s) := by
  simp only [run_sobel]
  rw [if_neg hs]

lemma sobelCore_both (img : Img Pix) (k : ℤ) :
    sobelCore img k "Both" =
      astypeU8 (cv2NormalizeMinMax (cv2Magnitude
        (cv2Sobel (bgrToGray img) 1 0 ((_odd k).toNat))
        (cv2Sobel (bgrToGray img) 0 1 ((_odd k).toNat)))) := rfl

lemma sobelCore_x (img : Img Pix) (k : ℤ) :
    sobelCore img k "X" =
      convertScaleAbs (cv2Sobel (bgrToGray img) 1 0 ((_odd k).toNat)) := rfl

lemma sobelCore_y (img : Img Pix) (k : ℤ) :
    sobelCore img k "Y" =
      convertScaleAbs (cv2Sobel (bgrToGray img) 0 1 ((_odd k).toNat)) := rfl

/-- A direction that is none of the recognized (capitalized) strings
computes neither gradient, so the returned raster is
`convertScaleAbs` of the all-zero gradient. -/
lemma sobelCore_unrec (img : Img Pix) (k : ℤ) (d : String)
    (h1 : d ≠ "X") (h2 : d ≠ "Y") (h3 : d ≠ "Both") :
    sobelCore img k d = convertScaleAbs (zerosLike (bgrToGray img)) := by
  simp only [sobelCore]
  simp [h1, h2, h3]

lemma cv2Canny_binary (g : Img ℤ) (t1 t2 : ℤ) (r c : ℕ) :
    (cv2Canny g t1 t2).px r c = 0 ∨ (cv2Canny g t1 t2).px r c = 255 := by
  cases h : cannyEdge g t1 t2 r c <;> simp [cv2Canny, h]

lemma sobelCore_h (img : Img Pix) (k : ℤ) (d : String) :
    (sobelCore img k d).h = img.h := by
  simp [sobelCore, apply_ite Img.h, astypeU8, cv2NormalizeMinMax, cv2Magnitude,
    cv2Sobel, convSep, zerosLike, convertScaleAbs, bgrToGray]

lemma sobelCore_w (img : Img Pix) (k : ℤ) (d : String) :
    (sobelCore img k d).w = img.w := by
  simp [sobelCore, apply_ite Img.w, astypeU8, cv2NormalizeMinMax, cv2Magnitude,
    cv2Sobel, convSep, zerosLike, convertScaleAbs, bgrToGray]

/-! ## Claim theorems -/

/-- C1: for every 3-channel BGR raster and thresholds `low`, `high` in
`[0, 255]`, every pixel of the raster returned by `run_canny` is exactly 0
or 255. -/
theorem canny_output_binary (img : Img Pix) (low high ksize : ℤ) (sigma : ℚ)
    (_h1 : 0 ≤ low) (_h2 : low ≤ 255) (_h3 : 0 ≤ high) (_h4 : high ≤ 255) :
    ∀ r c, (run_canny img low high ksize sigma).px r c = 0 ∨
      (run_canny img low high ksize sigma).px r c = 255 := by
  intro r c
  exact cv2Canny_binary
    (if 1 < ksize ∨ 0 < sigma then _gaussian_blur (bgrToGray img) ksize sigma
     else bgrToGray img) low high r c

/-- Witness for C1 at a concrete raster and threshold pair. -/
theorem canny_output_binary_witness :
    (run_canny ⟨1, 1, fun _ _ => (0, 0, 0)⟩ 100 200 5 1).px 0 0 = 0 ∨
      (run_canny ⟨1, 1, fun _ _ => (0, 0, 0)⟩ 100 200 5 1).px 0 0 = 255 :=
  canny_output_binary ⟨1, 1, fun _ _ => (0, 0, 0)⟩ 100 200 5 1
    (by decide) (by decide) (by decide) (by decide) 0 0

/-- C3: the kernel normalizer returns every odd `k ≥ 1` unchanged, maps
every even `k ≥ 2` to `k + 1`, and returns an odd number on every positive
input. -/
theorem odd_normalizer_spec (k : ℤ) :
    (1 ≤ k → Odd k → _odd k = k) ∧ (2 ≤ k → Even k → _odd k = k + 1) ∧
      (1 ≤ k → Odd (_odd k)) := by
  refine ⟨fun _ hk => ?_, fun _ hk => ?_, fun _ => ?_⟩
  · unfold _odd
    rw [if_pos (Int.odd_iff.mp hk)]
  · unfold _odd
    rw [Int.even_iff] at hk
    rw [if_neg (by omega)]
  · unfold _odd
    by_cases h : k % 2 = 1
    · rw [if_pos h]
      exact Int.odd_iff.mpr h
    · rw [if_neg h]
      rcases Int.emod_two_eq k with h0 | h1
      · exact (Int.even_iff.mpr h0).add_one
      · exact absurd h1 h
/-- Witness for C3 at `k = 3` (odd) and `k = 4` (even). -/
theorem odd_normalizer_spec_witness : _odd 3 = 3 ∧ _odd 4 = 5 ∧ Odd (_odd 3) :=
  ⟨(odd_normalizer_spec 3).1 (by norm_num) (Int.odd_iff.mpr (by decide)),
   (odd_normalizer_spec 4).2.1 (by norm_num) (Int.even_iff.mpr (by decide)),
   (odd_normalizer_spec 3).2.2 (by norm_num)⟩

/-- C9: on every integer, including zero and negatives, `_odd` returns an
odd integer; odd inputs are unchanged and even inputs are incremented. -/
theorem odd_normalizer_total (v : ℤ) :
    Odd (_odd v) ∧ (Odd v → _odd v = v) ∧ (Even v → _odd v = v + 1) := by
  refine ⟨?_, fun hv => ?_, fun hv => ?_⟩
  · unfold _odd
    by_cases h : v % 2 = 1
    · rw [if_pos h]
      exact Int.odd_iff.mpr h
    · rw [if_neg h]
      rcases Int.emod_two_eq v with h0 | h1
      · exact (Int.even_iff.mpr h0).add_one
      · exact absurd h1 h
  · unfold _odd
    rw [if_pos (Int.odd_iff.mp hv)]
  · unfold _odd
    rw [Int.even_iff] at hv
    rw [if_neg (by omega)]
/-- Witness for C9 at the negative inputs `-3` (odd) and `-4` (even). -/
theorem odd_normalizer_total_witness :
    _odd (-3) = -3 ∧ _odd (-4) = -4 + 1 :=
  ⟨(odd_normalizer_total (-3)).2.1 (Int.odd_iff.mpr (by decide)),
   (odd_normalizer_total (-4)).2.2 (Int.even_iff.mpr (by decide))⟩

/-- C5: Laplacian and single-axis Sobel outputs always lie within the 8-bit
range: the float gradient goes through absolute value and a saturating cast,
never through min-max rescaling, so every pixel is at most 255. -/
theorem singleaxis_outputs_saturate (img : Img Pix) (k : ℤ) (r c : ℕ) :
    (run_laplacian img k).px r c ≤ 255 ∧
      (run_sobel img k (some "X")).px r c ≤ 255 ∧
      (run_sobel img k (some "Y")).px r c ≤ 255 := by
  refine ⟨?_, ?_, ?_⟩
  · simp only [run_laplacian, convertScaleAbs]
    exact min_le_left _ _
  · rw [run_sobel_some _ _ _ (by decide), show pyCapitalize "X" = "X" from rfl,
      sobelCore_x]
    simp only [convertScaleAbs]
    exact min_le_left _ _
  · rw [run_sobel_some _ _ _ (by decide), show pyCapitalize "Y" = "Y" from rfl,
      sobelCore_y]
    simp only [convertScaleAbs]
    exact min_le_left _ _

/-- C6: converting a 3-channel RGB raster to the internal BGR order and back
is the identity, dimension by dimension and pixel by pixel. -/
theorem color_roundtrip (img : Img Pix) :
    (cv2_to_pil (CvMat.color (pil_to_cv2 img))).h = img.h ∧
      (cv2_to_pil (CvMat.color (pil_to_cv2 img))).w = img.w ∧
      ∀ r c, (cv2_to_pil (CvMat.color (pil_to_cv2 img))).px r c = img.px r c :=
  ⟨rfl, rfl, fun _ _ => rfl⟩

/-- C7: `run_canny` blurs the grayscale image exactly when `ksize > 1` or
`sigma > 0`, and the blur uses the odd-normalized kernel size with the same
sigma on both axes. -/
theorem canny_preblur_condition (img : Img Pix) (low high ksize : ℤ) (sigma : ℚ) :
    run_canny img low high ksize sigma =
      cv2Canny (if 1 < ksize ∨ 0 < sigma then
          cv2GaussianBlur (bgrToGray img) ((_odd ksize).toNat) sigma sigma
        else bgrToGray img) low high := rfl

/-- C8: all three filters preserve the spatial dimensions of their input. -/
theorem pipeline_preserves_dims (img : Img Pix) (low high ksize : ℤ)
    (sigma : ℚ) (d : Option String) :
    (run_canny img low high ksize sigma).h = img.h ∧
      (run_canny img low high ksize sigma).w = img.w ∧
      (run_sobel img ksize d).h = img.h ∧ (run_sobel img ksize d).w = img.w ∧
      (run_laplacian img ksize).h = img.h ∧ (run_laplacian img ksize).w = img.w := by
  refine ⟨?_, ?_, ?_, ?_, ?_, ?_⟩
  · simp [run_canny, cv2Canny, _gaussian_blur, cv2GaussianBlur, bgrToGray,
      apply_ite Img.h]
  · simp [run_canny, cv2Canny, _gaussian_blur, cv2GaussianBlur, bgrToGray,
      apply_ite Img.w]
  · exact sobelCore_h img ksize _
  · exact sobelCore_w img ksize _
  · simp [run_laplacian, convertScaleAbs, cv2Laplacian, conv2d, convSep,
      bgrToGray, apply_ite Img.h]
  · simp [run_laplacian, convertScaleAbs, cv2Laplacian, conv2d, convSep,
      bgrToGray, apply_ite Img.w]

/-- C10: a falsy direction (Python `None` or the empty string) is replaced
by `"Both"` before matching, so `run_sobel` behaves exactly as with
direction `"Both"`. -/
theorem sobel_falsy_direction_defaults (img : Img Pix) (k : ℤ) :
    run_sobel img k none = run_sobel img k (some "Both") ∧
      run_sobel img k (some "") = run_sobel img k (some "Both") :=
  ⟨rfl, rfl⟩

/-- C4: on a perfectly flat 3-channel raster of positive size, `run_sobel`
with direction `"Both"` returns the all-zero raster: both gradients vanish,
the magnitude range is degenerate, and the min-max step's guarded scale is
zero instead of dividing by zero. -/
theorem sobel_both_flat_zero (img : Img Pix) (v : Pix) (hf : IsFlat img v)
    (hh : 0 < img.h) (hw : 0 < img.w) (ksize : ℤ) :
    ∀ r c, (run_sobel img ksize (some "Both")).px r c = 0 := by
  intro r c
  rw [run_sobel_some _ _ _ (by decide), show pyCapitalize "Both" = "Both" from rfl,
    sobelCore_both]
  have hGf : IsFlat (bgrToGray img)
      ((1868 * ((v.1 : ℕ) : ℤ) + 9617 * ((v.2.1 : ℕ) : ℤ) +
        4899 * ((v.2.2 : ℕ) : ℤ) + 8192) / 16384) := by
    intro a ha b hb
    simp only [bgrToGray] at ha hb ⊢
    rw [hf a ha b hb]
  have hgx : ∀ a b, (cv2Sobel (bgrToGray img) 1 0 ((_odd ksize).toNat)).px a b = 0 := by
    intro a b
    unfold cv2Sobel
    rw [convSep_const _ _ hGf hh hw, sobelKer_sum _ 1 one_pos]
    ring
  have hgy : ∀ a b, (cv2Sobel (bgrToGray img) 0 1 ((_odd ksize).toNat)).px a b = 0 := by
    intro a b
    unfold cv2Sobel
    rw [convSep_const _ _ hGf hh hw, sobelKer_sum _ 1 one_pos]
    ring
  have hM : ∀ a b, (cv2Magnitude (cv2Sobel (bgrToGray img) 1 0 ((_odd ksize).toNat))
      (cv2Sobel (bgrToGray img) 0 1 ((_odd ksize).toNat))).px a b = 0 := by
    intro a b
    simp only [cv2Magnitude]
    rw [hgx a b, hgy a b]
    norm_num
  have hmax : imgMax (cv2Magnitude (cv2Sobel (bgrToGray img) 1 0 ((_odd ksize).toNat))
      (cv2Sobel (bgrToGray img) 0 1 ((_odd ksize).toNat))) = 0 := by
    unfold imgMax
    rw [hM 0 0]
    refine foldl_max_const _ _ fun x hx => ?_
    obtain ⟨n, _, rfl⟩ := List.mem_map.mp hx
    exact hM _ _
  have hmin : imgMin (cv2Magnitude (cv2Sobel (bgrToGray img) 1 0 ((_odd ksize).toNat))
      (cv2Sobel (bgrToGray img) 0 1 ((_odd ksize).toNat))) = 0 := by
    unfold imgMin
    rw [hM 0 0]
    refine foldl_min_const _ _ fun x hx => ?_
    obtain ⟨n, _, rfl⟩ := List.mem_map.mp hx
    exact hM _ _
  simp only [astypeU8, cv2NormalizeMinMax]
  rw [hmax, hmin, if_neg (by norm_num), hM r c]
  norm_num

/-- Witness for C4 on a concrete flat 2×2 raster. -/
theorem sobel_both_flat_zero_witness :
    (run_sobel ⟨2, 2, fun _ _ => (7, 7, 7)⟩ 3 (some "Both")).px 0 0 = 0 :=
  sobel_both_flat_zero ⟨2, 2, fun _ _ => (7, 7, 7)⟩ (7, 7, 7)
    (fun _ _ _ _ => rfl) (by decide) (by decide) 3 0 0

/-- C2 (amended): two non-empty direction strings with the same
`capitalize` image select the same behavior (case-insensitive matching);
but a direction whose capitalization is none of "X", "Y", "Both" does not
fall back to "Both" behavior — no gradient is computed and the output is
the all-zero raster. -/
theorem sobel_direction_matching (img : Img Pix) (k : ℤ) (s t : String) :
    (s ≠ "" → t ≠ "" → pyCapitalize s = pyCapitalize t →
      run_sobel img k (some s) = run_sobel img k (some t)) ∧
    (s ≠ "" → pyCapitalize s ≠ "X" → pyCapitalize s ≠ "Y" →
      pyCapitalize s ≠ "Both" → ∀ r c, (run_sobel img k (some s)).px r c = 0) := by
  constructor
  · intro hs ht hcap
    rw [run_sobel_some _ _ _ hs, run_sobel_some _ _ _ ht, hcap]
  · intro hs h1 h2 h3 r c
    rw [run_sobel_some _ _ _ hs, sobelCore_unrec _ _ _ h1 h2 h3]
    simp [convertScaleAbs, zerosLike]

/-- Witness for C2 (amended): a case variant of "Both" agrees with "Both",
and the unrecognized direction "Z" yields a zero pixel. -/
theorem sobel_direction_matching_witness :
    run_sobel ⟨1, 1, fun _ _ => (0, 0, 0)⟩ 3 (some "bOTH")
        = run_sobel ⟨1, 1, fun _ _ => (0, 0, 0)⟩ 3 (some "Both") ∧
      (run_sobel ⟨1, 1, fun _ _ => (0, 0, 0)⟩ 3 (some "Z")).px 0 0 = 0 :=
  ⟨(sobel_direction_matching ⟨1, 1, fun _ _ => (0, 0, 0)⟩ 3 "bOTH" "Both").1
      (by decide) (by decide) (by decide),
   (sobel_direction_matching ⟨1, 1, fun _ _ => (0, 0, 0)⟩ 3 "Z" "Both").2
      (by decide) (by decide) (by decide) (by decide) 0 0⟩

/-- A 1×3 raster whose gray row is (0, 0, 255): its Sobel-"Both" output is
not all-zero, separating "Both" behavior from an unrecognized direction. -/
def cexImg : Img Pix :=
  ⟨1, 3, fun _ c => if c = 2 then (255, 255, 255) else (0, 0, 0)⟩

/-- Counterexample to C2 as stated: with the unrecognized direction "Z",
`run_sobel` does not produce the "Both" output on `cexImg` — the "Z" output
is 0 at pixel (0,1) while the "Both" output is 255 there. -/
theorem sobel_unrecognized_not_both :
    (run_sobel cexImg 3 (some "Z")).px 0 1 ≠ (run_sobel cexImg 3 (some "Both")).px 0 1 := by
  have hgx0 : (cv2Sobel (bgrToGray cexImg) 1 0 ((_odd 3).toNat)).px 0 0 = 0 := by decide
  have hgx1 : (cv2Sobel (bgrToGray cexImg) 1 0 ((_odd 3).toNat)).px 0 1 = 1020 := by decide
  have hgx2 : (cv2Sobel (bgrToGray cexImg) 1 0 ((_odd 3).toNat)).px 0 2 = 0 := by decide
  have hgy0 : (cv2Sobel (bgrToGray cexImg) 0 1 ((_odd 3).toNat)).px 0 0 = 0 := by decide
  have hgy1 : (cv2Sobel (bgrToGray cexImg) 0 1 ((_odd 3).toNat)).px 0 1 = 0 := by decide
  have hgy2 : (cv2Sobel (bgrToGray cexImg) 0 1 ((_odd 3).toNat)).px 0 2 = 0 := by decide
  have hm0 : (cv2Magnitude (cv2Sobel (bgrToGray cexImg) 1 0 ((_odd 3).toNat))
      (cv2Sobel (bgrToGray cexImg) 0 1 ((_odd 3).toNat))).px 0 0 = 0 := by
    simp only [cv2Magnitude]
    rw [hgx0, hgy0]
    norm_num [Real.sqrt_zero]
  have hm1 : (cv2Magnitude (cv2Sobel (bgrToGray cexImg) 1 0 ((_odd 3).toNat))
      (cv2Sobel (bgrToGray cexImg) 0 1 ((_odd 3).toNat))).px 0 1 = 1020 := by
    simp only [cv2Magnitude]
    rw [hgx1, hgy1]
    have hcast : (((1020 : ℤ) : ℝ)) ^ 2 + (((0 : ℤ) : ℝ)) ^ 2 = 1020 ^ 2 := by
      push_cast
      ring
    rw [hcast, Real.sqrt_sq (by norm_num)]
  have hm2 : (cv2Magnitude (cv2Sobel (bgrToGray cexImg) 1 0 ((_odd 3).toNat))
      (cv2Sobel (bgrToGray cexImg) 0 1 ((_odd 3).toNat))).px 0 2 = 0 := by
    simp only [cv2Magnitude]
    rw [hgx2, hgy2]
    norm_num [Real.sqrt_zero]
  have hmax : imgMax (cv2Magnitude (cv2Sobel (bgrToGray cexImg) 1 0 ((_odd 3).toNat))
      (cv2Sobel (bgrToGray cexImg) 0 1 ((_odd 3).toNat))) = 1020 := by
    have hfold : imgMax (cv2Magnitude (cv2Sobel (bgrToGray cexImg) 1 0 ((_odd 3).toNat))
        (cv2Sobel (bgrToGray cexImg) 0 1 ((_odd 3).toNat)))
        = max (max (max ((cv2Magnitude (cv2Sobel (bgrToGray cexImg) 1 0 ((_odd 3).toNat))
            (cv2Sobel (bgrToGray cexImg) 0 1 ((_odd 3).toNat))).px 0 0)
          ((cv2Magnitude (cv2Sobel (bgrToGray cexImg) 1 0 ((_odd 3).toNat))
            (cv2Sobel (bgrToGray cexImg) 0 1 ((_odd 3).toNat))).px 0 0))
          ((cv2Magnitude (cv2Sobel (bgrToGray cexImg) 1 0 ((_odd 3).toNat))
            (cv2Sobel (bgrToGray cexImg) 0 1 ((_odd 3).toNat))).px 0 1))
          ((cv2Magnitude (cv2Sobel (bgrToGray cexImg) 1 0 ((_odd 3).toNat))
            (cv2Sobel (bgrToGray cexImg) 0 1 ((_odd 3).toNat))).px 0 2) := rfl
    rw [hfold, hm0, hm1, hm2, max_self,
      max_eq_right (by norm_num : (0 : ℝ) ≤ 1020),
      max_eq_left (by norm_num : (0 : ℝ) ≤ 1020)]
  have hmin : imgMin (cv2Magnitude (cv2Sobel (bgrToGray cexImg) 1 0 ((_odd 3).toNat))
      (cv2Sobel (bgrToGray cexImg) 0 1 ((_odd 3).toNat))) = 0 := by
    have hfold : imgMin (cv2Magnitude (cv2Sobel (bgrToGray cexImg) 1 0 ((_odd 3).toNat))
        (cv2Sobel (bgrToGray cexImg) 0 1 ((_odd 3).toNat)))
        = min (min (min ((cv2Magnitude (cv2Sobel (bgrToGray cexImg) 1 0 ((_odd 3).toNat))
            (cv2Sobel (bgrToGray cexImg) 0 1 ((_odd 3).toNat))).px 0 0)
          ((cv2Magnitude (cv2Sobel (bgrToGray cexImg) 1 0 ((_odd 3).toNat))
            (cv2Sobel (bgrToGray cexImg) 0 1 ((_odd 3).toNat))).px 0 0))
          ((cv2Magnitude (cv2Sobel (bgrToGray cexImg) 1 0 ((_odd 3).toNat))
            (cv2Sobel (bgrToGray cexImg) 0 1 ((_odd 3).toNat))).px 0 1))
          ((cv2Magnitude (cv2Sobel (bgrToGray cexImg) 1 0 ((_odd 3).toNat))
            (cv2Sobel (bgrToGray cexImg) 0 1 ((_odd 3).toNat))).px 0 2) := rfl
    rw [hfold, hm0, hm1, hm2, min_self,
      min_eq_left (by norm_num : (0 : ℝ) ≤ 1020), min_self]
  have hb : (run_sobel cexImg 3 (some "Both")).px 0 1 = 255 := by
    rw [run_sobel_some _ _ _ (by decide), show pyCapitalize "Both" = "Both" from rfl,
      sobelCore_both]
    simp only [astypeU8, cv2NormalizeMinMax]
    rw [hmax, hmin, if_pos (by norm_num : (0 : ℝ) < 1020 - 0), hm1]
    have harith : (1020 : ℝ) * (255 / (1020 - 0)) + (0 - 0 * (255 / (1020 - 0)))
        = ((255 : ℤ) : ℝ) := by
      push_cast
      norm_num
    rw [harith, Int.floor_intCast]
    rfl
  have hz : (run_sobel cexImg 3 (some "Z")).px 0 1 = 0 := by
    rw [run_sobel_some _ _ _ (by decide), show pyCapitalize "Z" = "Z" from rfl,
      sobelCore_unrec _ _ _ (by decide) (by decide) (by decide)]
    simp [convertScaleAbs, zerosLike]
  rw [hz, hb]
  decide
